import Mathlib

/-!
Shallow embedding of the velvet-box-server application/job-listing services
(`src/services/applicationResponse.service.ts`, `src/services/jobListing.service.ts`,
the two repositories and the mongoose models), together with theorems checking the
specification's claims against this embedding.

Conventions of the embedding:
* TypeScript `undefined`/missing optional values become `Option`.
* JavaScript truthiness on strings (`""` is falsy) and numbers (`0` is falsy)
  is modelled explicitly where the source relies on it.
* The mongo collections become Lean lists; `findByIdAndUpdate` becomes
  find-first-and-replace; thrown `BadRequestError`/`NotFoundError`/
  `InternalServerError` become `Except.error` carrying the source's message.
* Numbers are modelled as `Int` (durations, counters); dates as an abstract
  `Int` timestamp passed in as `now`.
-/

namespace VelvetBox

/-- JS truthiness for an optional string: `undefined` and `""` are falsy. -/
def strTruthy : Option String → Bool
  | none => false
  | some s => if s = "" then false else true

/-- JS `String.prototype.toLowerCase` restricted to its ASCII action, defined
over the character data (so that it computes by reduction). -/
def toLowerStr (s : String) : String := String.mk (s.data.map Char.toLower)

/-- A voice/video recording payload embedded in an application response
(`applicationResponse.model.ts`, `voiceRecording`/`videoRecording`). -/
structure Recording where
  url : Option String
  duration : Option Int
  format : Option String
  uploadedAt : Option Int
deriving Repr, DecidableEq

/-- `recordingConfig` on a snapshot form field (`joblisting.model.ts`). -/
structure RecordingConfig where
  minDuration : Option Int
  maxDuration : Option Int
deriving Repr, DecidableEq

/-- A field of a custom form section as carried in `formSnapshot.customSections`. -/
structure FormField where
  fieldName : String
  fieldLabel : String
  fieldType : String
  isRequired : Bool
  recordingConfig : Option RecordingConfig
deriving Repr, DecidableEq

/-- A custom form section of the snapshot; `fields` is optional because the
service guards with `if (section.fields)`. -/
structure FormSection where
  fields : Option (List FormField)
deriving Repr, DecidableEq

/-- The `formSnapshot` carried by a submission; `customSections` is optional
because the service guards with `if (formSnapshot && formSnapshot.customSections)`. -/
structure FormSnapshot where
  customSections : Option (List FormSection)
deriving Repr, DecidableEq

/-- Candidate identity on an application. -/
structure Candidate where
  name : String
  email : String
  phone : Option String
deriving Repr, DecidableEq

/-- One answered field of an application (`IApplicationResponse`). -/
structure ApplicationResponse where
  fieldName : String
  fieldLabel : String
  fieldType : String
  value : Option String
  voiceRecording : Option Recording
  videoRecording : Option Recording
deriving Repr, DecidableEq

/-- A persisted application document (`applicationResponse.model.ts`).
The mongoose schema lowercases `candidate.email` on save and defaults
`status` to `"submitted"`. -/
structure Application where
  id : String
  jobListingId : String
  candidate : Candidate
  responses : List ApplicationResponse
  formSnapshot : Option FormSnapshot
  status : String
  submittedAt : Int
deriving Repr, DecidableEq

/-- ASCII hexadecimal digit test. -/
def isHexDigit (c : Char) : Bool :=
  c.isDigit || ('a' ≤ c && c ≤ 'f') || ('A' ≤ c && c ≤ 'F')

/-- `mongoose.Types.ObjectId.isValid` on a string: a 24-character hex string,
or any 12-character string (interpreted as 12 raw bytes). -/
def isValidObjectId (s : String) : Bool :=
  (s.length = 24 && s.toList.all isHexDigit) || s.length = 12

/-- Truthiness of `rec && rec.url`: the recording is present with a truthy url. -/
def recPresent : Option Recording → Bool
  | none => false
  | some r => strTruthy r.url

/-- The `duration` read off an optional recording (`undefined` propagates). -/
def recDuration : Option Recording → Option Int
  | none => none
  | some r => r.duration

/-- JS `duration < m` where `duration` may be `undefined`
(comparison with `undefined` is `NaN`-false). -/
def optLtB : Option Int → Int → Bool
  | none, _ => false
  | some d, m => d < m

/-- JS `duration > m` where `duration` may be `undefined`. -/
def optGtB : Option Int → Int → Bool
  | none, _ => false
  | some d, m => m < d

/-- `if (minDuration && duration < minDuration) throw ...` — note that a
`minDuration` of `0` is falsy and disables the bound. -/
def checkMinDuration (kind lbl : String) (d : Option Int) : Option Int → Except String Unit
  | some m =>
    if m ≠ 0 && optLtB d m then
      .error (kind ++ " recording for " ++ lbl ++ " must be at least " ++ toString m ++ " seconds")
    else .ok ()
  | none => .ok ()

/-- `if (maxDuration && duration > maxDuration) throw ...`. -/
def checkMaxDuration (kind lbl : String) (d : Option Int) : Option Int → Except String Unit
  | some m =>
    if m ≠ 0 && optGtB d m then
      .error (kind ++ " recording for " ++ lbl ++ " cannot exceed " ++ toString m ++ " seconds")
    else .ok ()
  | none => .ok ()

/-- The recording branch of `validateRecordingResponse` for one kind
(`"Voice"` or `"Video"`): absent-or-url-less recording fails only when the
field is required; a present recording is checked against the duration bounds
when `recordingConfig` exists. -/
def checkRecording (kind lbl : String) (rec : Option Recording) (required : Bool)
    (cfg : Option RecordingConfig) : Except String Unit :=
  if !(recPresent rec) then
    if required then
      .error (kind ++ " recording is required for field: " ++ lbl)
    else .ok ()
  else
    match cfg with
    | none => .ok ()
    | some c =>
      match checkMinDuration kind lbl (recDuration rec) c.minDuration with
      | .error e => .error e
      | .ok () => checkMaxDuration kind lbl (recDuration rec) c.maxDuration

/-- `fieldConfig?.isRequired` (falsy when the config is absent). -/
def fieldIsRequired : Option FormField → Bool
  | none => false
  | some f => f.isRequired

/-- `fieldConfig?.recordingConfig`. -/
def fieldRecordingConfig : Option FormField → Option RecordingConfig
  | none => none
  | some f => f.recordingConfig

/-- `ApplicationService.validateRecordingResponse`: dispatches on the
response's `fieldType`, handling `voice_recording` then `video_recording`. -/
def validateRecordingResponse (response : ApplicationResponse)
    (fieldConfig : Option FormField) : Except String Unit :=
  match (if response.fieldType = "voice_recording" then
          checkRecording "Voice" response.fieldLabel response.voiceRecording
            (fieldIsRequired fieldConfig) (fieldRecordingConfig fieldConfig)
        else .ok ()) with
  | .error e => .error e
  | .ok () =>
    if response.fieldType = "video_recording" then
      checkRecording "Video" response.fieldLabel response.videoRecording
        (fieldIsRequired fieldConfig) (fieldRecordingConfig fieldConfig)
    else .ok ()

/-- The per-field step of the snapshot loop in `submitApplication`: locate the
response matching the field's `fieldName`; validate it if found, otherwise fail
when the field is required. -/
def validateField (responses : List ApplicationResponse) (field : FormField) :
    Except String Unit :=
  match responses.find? (fun r => r.fieldName = field.fieldName) with
  | some response => validateRecordingResponse response (some field)
  | none =>
    if field.isRequired then
      .error ("Required field missing: " ++ field.fieldLabel)
    else .ok ()

/-- Sequencing of `validateField` over the fields of one section. -/
def validateFields (responses : List ApplicationResponse) :
    List FormField → Except String Unit
  | [] => .ok ()
  | f :: rest =>
    match validateField responses f with
    | .error e => .error e
    | .ok () => validateFields responses rest

/-- One section of the snapshot loop (guarded by `if (section.fields)`). -/
def validateSection (responses : List ApplicationResponse) (s : FormSection) :
    Except String Unit :=
  match s.fields with
  | none => .ok ()
  | some fs => validateFields responses fs

/-- Sequencing over all sections of the snapshot. -/
def validateSections (responses : List ApplicationResponse) :
    List FormSection → Except String Unit
  | [] => .ok ()
  | s :: rest =>
    match validateSection responses s with
    | .error e => .error e
    | .ok () => validateSections responses rest

/-- The whole snapshot validation, guarded by
`if (formSnapshot && formSnapshot.customSections)`. -/
def validateSnapshot (responses : List ApplicationResponse) :
    Option FormSnapshot → Except String Unit
  | none => .ok ()
  | some snap =>
    match snap.customSections with
    | none => .ok ()
    | some sections => validateSections responses sections

/-- `ApplicationRepository.getApplicationByEmailAndJob`: first stored
application matching the lowercased email and the job listing id. -/
def getApplicationByEmailAndJob (store : List Application) (email jobListingId : String) :
    Option Application :=
  store.find? (fun a => a.candidate.email = toLowerStr email && a.jobListingId = jobListingId)

/-- Stamp `uploadedAt` with the current time when the recording carries none. -/
def stampRecording (now : Int) : Option Recording → Option Recording
  | none => none
  | some r =>
    if r.uploadedAt = none then some { r with uploadedAt := some now } else some r

/-- The `processedResponses` mapping of `submitApplication`. -/
def processResponse (now : Int) (r : ApplicationResponse) : ApplicationResponse :=
  { r with voiceRecording := stampRecording now r.voiceRecording,
           videoRecording := stampRecording now r.videoRecording }

/-- The caller-supplied parameters of `submitApplication`
(`ISubmitApplicationParams`; `formSnapshot` may be absent at runtime). -/
structure SubmitParams where
  jobListingId : String
  candidate : Candidate
  responses : List ApplicationResponse
  formSnapshot : Option FormSnapshot
deriving Repr, DecidableEq

/-- The application document persisted by `ApplicationRepository.createApplication`
for the given submission: the schema lowercases the stored email, `status`
defaults to `"submitted"`, and responses get their `uploadedAt` stamps. -/
def mkSubmittedApplication (p : SubmitParams) (now : Int) (newId : String) : Application :=
  { id := newId,
    jobListingId := p.jobListingId,
    candidate := { p.candidate with email := toLowerStr p.candidate.email },
    responses := p.responses.map (processResponse now),
    formSnapshot := p.formSnapshot,
    status := "submitted",
    submittedAt := now }

/-- `ApplicationService.submitApplication` over a store of persisted
applications: id-syntax check, duplicate (email, job) check, candidate and
responses presence checks, snapshot validation, then persistence.
Returns the new store and the created application. -/
def submitApplication (store : List Application) (p : SubmitParams) (now : Int)
    (newId : String) : Except String (List Application × Application) :=
  if !(isValidObjectId p.jobListingId) then
    .error "Invalid job listing ID"
  else if (getApplicationByEmailAndJob store p.candidate.email p.jobListingId).isSome then
    .error "You have already applied for this job"
  else if p.candidate.name = "" ∨ p.candidate.email = "" then
    .error "Candidate name and email are required"
  else if p.responses.isEmpty then
    .error "Application responses are required"
  else
    match validateSnapshot p.responses p.formSnapshot with
    | .error e => .error e
    | .ok () =>
      .ok (store ++ [mkSubmittedApplication p now newId], mkSubmittedApplication p now newId)

/-- The five-value application status enum used by the service layer. -/
def validStatuses : List String :=
  ["submitted", "under_review", "shortlisted", "rejected", "accepted"]

/-- `ApplicationService.bulkUpdateApplicationStatus` composed with
`ApplicationRepository.bulkUpdateApplicationStatus` (`updateMany` on the id
set). The repository's `modifiedCount` counts documents that matched and whose
status actually changed. -/
def bulkUpdateApplicationStatus (store : List Application) (applicationIds : List String)
    (status : String) : Except String (List Application × Nat) :=
  if applicationIds.isEmpty then
    .error "Application IDs are required"
  else if (applicationIds.filter (fun id => !(isValidObjectId id))).length > 0 then
    .error "One or more invalid application IDs"
  else if !(validStatuses.contains status) then
    .error "Invalid application status"
  else
    .ok (store.map (fun a => if applicationIds.contains a.id then { a with status := status } else a),
          (store.filter (fun a => applicationIds.contains a.id && a.status ≠ status)).length)

/-! ## Job listing side (`joblisting.model.ts`, `jobListing.repository.ts`,
`jobListing.service.ts`) -/

/-- Job listing lifecycle status (`JobStatus` enum). -/
inductive JobStatus where
  | draft
  | active
  | closed
  | archived
deriving Repr, DecidableEq

/-- An embedded media entry of a job listing (with its mongo subdocument id). -/
structure MediaItem where
  id : String
  url : String
  mediaType : String
  caption : Option String
  order : Int
deriving Repr, DecidableEq

/-- A persisted job listing document, restricted to the fields the claims
touch (`joblisting.model.ts`). -/
structure JobListing where
  id : String
  jobTitle : String
  jobDescription : String
  role : String
  slug : Option String
  status : JobStatus
  isPublished : Bool
  publishedAt : Option Int
  views : Int
  media : List MediaItem
deriving Repr, DecidableEq

/-- Replace the first element satisfying `p` by its image under `f`
(a single-document mongo update on a list-modelled collection). -/
def replaceFirst (p : α → Bool) (f : α → α) : List α → List α
  | [] => []
  | x :: xs => if p x then f x :: xs else x :: replaceFirst p f xs

/-- `findOneAndUpdate(filter, update, { new: true })`: `none` when no document
matches, otherwise the updated store and the updated document. -/
def findAndUpdate (store : List JobListing) (p : JobListing → Bool)
    (f : JobListing → JobListing) : Option (List JobListing × JobListing) :=
  match store.find? p with
  | none => none
  | some j => some (replaceFirst p f store, f j)

/-- `JobListingRepository.getJobListingById` over the list-modelled store. -/
def getJobListingDoc (store : List JobListing) (jobId : String) : Option JobListing :=
  store.find? (fun j => j.id = jobId)

/-- The document update applied by `JobListingRepository.publishJobListing`:
set `isPublished`, `publishedAt` and `status = active`. -/
def publishUpdate (now : Int) (j : JobListing) : JobListing :=
  { j with isPublished := true, publishedAt := some now, status := .active }

/-- `JobListingRepository.publishJobListing`. -/
def repoPublishJobListing (store : List JobListing) (jobId : String) (now : Int) :
    Option (List JobListing × JobListing) :=
  findAndUpdate store (fun j => j.id = jobId) (publishUpdate now)

/-- The document update applied by `JobListingRepository.unpublishJobListing`:
clear `isPublished`, set `status = draft`. -/
def unpublishUpdate (j : JobListing) : JobListing :=
  { j with isPublished := false, status := .draft }

/-- `JobListingRepository.unpublishJobListing`. -/
def repoUnpublishJobListing (store : List JobListing) (jobId : String) :
    Option (List JobListing × JobListing) :=
  findAndUpdate store (fun j => j.id = jobId) unpublishUpdate

/-- The `$inc: { views: 1 }` document update. -/
def incViewsUpdate (j : JobListing) : JobListing :=
  { j with views := j.views + 1 }

/-- `JobListingRepository.incrementViews`: atomic `$inc` of `views` by 1. -/
def repoIncrementViews (store : List JobListing) (jobId : String) :
    Option (List JobListing × JobListing) :=
  findAndUpdate store (fun j => j.id = jobId) incViewsUpdate

/-- The `$pull` document update removing media entries matching `mediaId`. -/
def pullMediaUpdate (mediaId : String) (j : JobListing) : JobListing :=
  { j with media := j.media.filter (fun m => !(m.id = mediaId)) }

/-- `JobListingRepository.removeMediaFromJobListing`: `findByIdAndUpdate` with
`$pull` on the embedded media id — the parent matching alone decides success. -/
def repoRemoveMediaFromJobListing (store : List JobListing) (jobId mediaId : String) :
    Option (List JobListing × JobListing) :=
  findAndUpdate store (fun j => j.id = jobId) (pullMediaUpdate mediaId)

/-- Positional (`media.$`) update of the first media entry matching `mediaId`:
set `caption` and/or `order` when supplied. -/
def setMediaFields (caption : Option String) (order : Option Int) (m : MediaItem) :
    MediaItem :=
  { m with caption := match caption with | some c => some c | none => m.caption,
           order := match order with | some o => o | none => m.order }

/-- `JobListingRepository.updateMedia`: `findOneAndUpdate` filtering on BOTH
the listing id and the embedded media id, so a listing without a matching
media entry matches no document at all. The positional update below is the
document transform it applies. -/
def positionalMediaUpdate (mediaId : String) (caption : Option String)
    (order : Option Int) (j : JobListing) : JobListing :=
  { j with media := replaceFirst (fun m => m.id = mediaId)
                      (setMediaFields caption order) j.media }

/-- `JobListingRepository.updateMedia` (see the doc comment above). -/
def repoUpdateMedia (store : List JobListing) (jobId mediaId : String)
    (caption : Option String) (order : Option Int) :
    Option (List JobListing × JobListing) :=
  findAndUpdate store (fun j => j.id = jobId && j.media.any (fun m => m.id = mediaId))
    (positionalMediaUpdate mediaId caption order)

/-- `JobListingService.publishJobListing`: guards (id present, listing exists,
title/description/role non-empty, not already published) then the repository
publish; a `none` from the repository is surfaced as an internal error. -/
def publishJobListing (store : List JobListing) (jobId : String) (now : Int) :
    Except String (List JobListing × JobListing) :=
  if jobId = "" then .error "Job ID is required"
  else
    match getJobListingDoc store jobId with
    | none => .error "Job listing not found"
    | some existingJob =>
      if existingJob.jobTitle = "" ∨ existingJob.jobDescription = "" ∨ existingJob.role = "" then
        .error "Job listing must have title, description, and role to be published"
      else if existingJob.isPublished then
        .error "Job listing is already published"
      else
        match repoPublishJobListing store jobId now with
        | none => .error "Failed to publish job listing"
        | some (st, j) => .ok (st, j)

/-- `JobListingService.unpublishJobListing`. -/
def unpublishJobListing (store : List JobListing) (jobId : String) :
    Except String (List JobListing × JobListing) :=
  if jobId = "" then .error "Job ID is required"
  else
    match getJobListingDoc store jobId with
    | none => .error "Job listing not found"
    | some existingJob =>
      if !existingJob.isPublished then
        .error "Job listing is not published"
      else
        match repoUnpublishJobListing store jobId with
        | none => .error "Failed to unpublish job listing"
        | some (st, j) => .ok (st, j)

/-- `JobListingService.getJobListingById`: fetch, then — when `incrementViews`
is requested AND the listing is published — atomically increment the stored
counter and bump the returned document's `views` by 1. -/
def getJobListingById (store : List JobListing) (jobId : String)
    (incrementViews : Bool) : Except String (List JobListing × JobListing) :=
  if jobId = "" then .error "Job ID is required"
  else
    match getJobListingDoc store jobId with
    | none => .error "Job listing not found"
    | some jobListing =>
      if incrementViews && jobListing.isPublished then
        match repoIncrementViews store jobId with
        | none => .ok (store, { jobListing with views := jobListing.views + 1 })
        | some (st, _) => .ok (st, { jobListing with views := jobListing.views + 1 })
      else .ok (store, jobListing)

/-- `JobListingService.getJobListingBySlug`: same shape, looked up by slug and
incrementing through the fetched listing's `_id`. -/
def getJobListingBySlug (store : List JobListing) (slug : String)
    (incrementViews : Bool) : Except String (List JobListing × JobListing) :=
  if slug = "" then .error "Slug is required"
  else
    match store.find? (fun j => j.slug = some slug) with
    | none => .error "Job listing not found"
    | some jobListing =>
      if incrementViews && jobListing.isPublished then
        match repoIncrementViews store jobListing.id with
        | none => .ok (store, { jobListing with views := jobListing.views + 1 })
        | some (st, _) => .ok (st, { jobListing with views := jobListing.views + 1 })
      else .ok (store, jobListing)

/-- `JobListingService.removeMediaFromJobListing`: existence-checked, then the
repository `$pull`; a `none` from the repository is an internal error. -/
def removeMediaFromJobListing (store : List JobListing) (jobId mediaId : String) :
    Except String (List JobListing × JobListing) :=
  if jobId = "" then .error "Job ID is required"
  else if mediaId = "" then .error "Media ID is required"
  else
    match getJobListingDoc store jobId with
    | none => .error "Job listing not found"
    | some _ =>
      match repoRemoveMediaFromJobListing store jobId mediaId with
      | none => .error "Failed to remove media from job listing"
      | some (st, j) => .ok (st, j)

/-- `JobListingService.updateMedia`: existence-checked, then the repository's
compound-filter `findOneAndUpdate`; a `none` from the repository is an
internal error — which is exactly what an absent media sub-id produces. -/
def updateMedia (store : List JobListing) (jobId mediaId : String)
    (caption : Option String) (order : Option Int) :
    Except String (List JobListing × JobListing) :=
  if jobId = "" then .error "Job ID is required"
  else if mediaId = "" then .error "Media ID is required"
  else
    match getJobListingDoc store jobId with
    | none => .error "Job listing not found"
    | some _ =>
      match repoUpdateMedia store jobId mediaId caption order with
      | none => .error "Failed to update media"
      | some (st, j) => .ok (st, j)

/-! ## Slug derivation (`createJobListing`) -/

/-- Membership in the post-lowercasing slug alphabet `[a-z0-9]`. -/
def isSlugChar (c : Char) : Bool :=
  ('a' ≤ c && c ≤ 'z') || ('0' ≤ c && c ≤ '9')

/-- Prepend a hyphen unless one is already at the front (used to collapse a
run of replaced characters into a single hyphen). -/
def pushHyphen : List Char → List Char
  | '-' :: l => '-' :: l
  | l => '-' :: l

/-- `replace(/[^a-z0-9]+/g, '-')`: each maximal run of non-alphanumeric
characters collapses to a single hyphen. -/
def collapseChars : List Char → List Char
  | [] => []
  | c :: rest =>
    if isSlugChar c then c :: collapseChars rest
    else pushHyphen (collapseChars rest)

/-- `replace(/^-+|-+$/g, '')`: strip leading and trailing hyphens. -/
def trimHyphens (l : List Char) : List Char :=
  ((l.dropWhile (fun c => c = '-')).reverse.dropWhile (fun c => c = '-')).reverse

/-- The base part of the derived slug: lowercase the title, collapse
non-alphanumeric runs to hyphens, trim boundary hyphens. -/
def slugBase (title : String) : String :=
  String.mk (trimHyphens (collapseChars (toLowerStr title).toList))

/-- The nanoid alphabet used for the random suffix
(`customAlphabet('abcdefghijklmnopqrstuvwxyz0123456789', 10)`). -/
def nanoidAlphabet : List Char := "abcdefghijklmnopqrstuvwxyz0123456789".toList

/-- The slug derived by `createJobListing` when the caller supplies none:
the base joined to the random suffix by a hyphen. -/
def deriveSlug (title suffix : String) : String :=
  slugBase title ++ "-" ++ suffix

/-- The creation parameters of `createJobListing` restricted to the fields the
claims touch. -/
structure CreateJobListingParams where
  jobTitle : String
  jobDescription : String
  role : String
  slug : Option String
deriving Repr, DecidableEq

/-- `JobListingService.createJobListing` over the list-modelled store, with
the nanoid draw passed in as `suffix` and the new document id as `newId`:
required-field checks, slug derivation when the caller supplies none
(JS truthiness: an empty string also triggers derivation), then persistence
with the sparse-unique slug constraint surfaced as an already-exists error. -/
def createJobListing (store : List JobListing) (p : CreateJobListingParams)
    (suffix newId : String) : Except String (List JobListing × JobListing) :=
  if p.jobTitle = "" then .error "Job title is required"
  else if p.jobDescription = "" then .error "Job description is required"
  else if p.role = "" then .error "Role is required"
  else
    let slug := if strTruthy p.slug then p.slug.getD "" else deriveSlug p.jobTitle suffix
    if store.any (fun j => j.slug = some slug) then
      .error ("Job listing with slug '" ++ slug ++ "' already exists")
    else
      let jobListing : JobListing :=
        { id := newId, jobTitle := p.jobTitle, jobDescription := p.jobDescription,
          role := p.role, slug := some slug, status := .draft, isPublished := false,
          publishedAt := none, views := 0, media := [] }
      .ok (store ++ [jobListing], jobListing)

/-! ## Helper lemmas -/

/-- A required field with no matching response fails with the source's
`Required field missing` message. -/
theorem validateField_missing_required (responses : List ApplicationResponse)
    (field : FormField)
    (hfind : responses.find? (fun r => r.fieldName = field.fieldName) = none)
    (hreq : field.isRequired = true) :
    validateField responses field = .error ("Required field missing: " ++ field.fieldLabel) := by
  unfold validateField
  rw [hfind, hreq]
  simp

/-- The field sequence validates iff each field does. -/
theorem validateFields_ok_iff (responses : List ApplicationResponse)
    (fs : List FormField) :
    validateFields responses fs = .ok () ↔
      ∀ f ∈ fs, validateField responses f = .ok () := by
  induction fs with
  | nil => simp [validateFields]
  | cons f rest ih =>
    unfold validateFields
    cases h : validateField responses f with
    | error e =>
      simp only [List.mem_cons]
      constructor
      · intro hc; cases hc
      · intro hall
        have := hall f (Or.inl rfl)
        rw [h] at this
        cases this
    | ok u =>
      cases u
      simp only [List.mem_cons]
      rw [ih]
      constructor
      · intro hall g hg
        cases hg with
        | inl hg => cases hg; exact h
        | inr hg => exact hall g hg
      · intro hall g hg
        exact hall g (Or.inr hg)

/-- The section sequence validates iff each section does. -/
theorem validateSections_ok_iff (responses : List ApplicationResponse)
    (ss : List FormSection) :
    validateSections responses ss = .ok () ↔
      ∀ s ∈ ss, validateSection responses s = .ok () := by
  induction ss with
  | nil => simp [validateSections]
  | cons s rest ih =>
    unfold validateSections
    cases h : validateSection responses s with
    | error e =>
      simp only [List.mem_cons]
      constructor
      · intro hc; cases hc
      · intro hall
        have := hall s (Or.inl rfl)
        rw [h] at this
        cases this
    | ok u =>
      cases u
      simp only [List.mem_cons]
      rw [ih]
      constructor
      · intro hall t ht
        cases ht with
        | inl ht => cases ht; exact h
        | inr ht => exact hall t ht
      · intro hall t ht
        exact hall t (Or.inr ht)

/-- A unit `Except` that is not `ok` is an error. -/
theorem exceptUnit_error_of_ne_ok {r : Except String Unit} (h : r ≠ .ok ()) :
    ∃ e, r = .error e := by
  cases r with
  | error e => exact ⟨e, rfl⟩
  | ok u => cases u; exact absurd rfl h

/-- Once the four top-level guards of `submitApplication` pass, the outcome is
decided by the snapshot validation. -/
theorem submitApplication_guards (store : List Application) (p : SubmitParams)
    (now : Int) (newId : String)
    (h1 : isValidObjectId p.jobListingId = true)
    (h2 : getApplicationByEmailAndJob store p.candidate.email p.jobListingId = none)
    (h3 : ¬(p.candidate.name = "" ∨ p.candidate.email = ""))
    (h4 : p.responses ≠ []) :
    submitApplication store p now newId =
      match validateSnapshot p.responses p.formSnapshot with
      | .error e => .error e
      | .ok () =>
        .ok (store ++ [mkSubmittedApplication p now newId],
              mkSubmittedApplication p now newId) := by
  unfold submitApplication
  rw [h1, h2]
  simp only [Bool.not_true, Bool.false_eq_true, if_false, Option.isSome_none, if_neg h3]
  rw [if_neg]
  simp [List.isEmpty_iff, h4]

/-! ## Concrete documents used to instantiate the theorems -/

/-- A syntactically valid mongo ObjectId (24 hex characters). -/
def exampleObjectId : String := "507f1f77bcf86cd799439011"

/-- A second syntactically valid ObjectId. -/
def exampleObjectId2 : String := "507f1f77bcf86cd799439012"

/-- A required voice-recording form field with duration bounds 10–60 seconds. -/
def exampleVoiceField : FormField :=
  { fieldName := "intro_voice", fieldLabel := "Intro voice note",
    fieldType := "voice_recording", isRequired := true,
    recordingConfig := some { minDuration := some 10, maxDuration := some 60 } }

/-- A voice response with a recording of the given duration. -/
def exampleVoiceResponse (d : Int) : ApplicationResponse :=
  { fieldName := "intro_voice", fieldLabel := "Intro voice note",
    fieldType := "voice_recording", value := none,
    voiceRecording := some { url := some "https://cdn/x.webm", duration := some d,
                             format := some "webm", uploadedAt := none },
    videoRecording := none }

/-- A voice response that carries no `voiceRecording.url`. -/
def exampleVoiceResponseNoUrl : ApplicationResponse :=
  { fieldName := "intro_voice", fieldLabel := "Intro voice note",
    fieldType := "voice_recording", value := none,
    voiceRecording := some { url := none, duration := some 30,
                             format := some "webm", uploadedAt := none },
    videoRecording := none }

/-- A plain text response to an unrelated field. -/
def exampleTextResponse : ApplicationResponse :=
  { fieldName := "about", fieldLabel := "About you",
    fieldType := "text", value := some "hi", voiceRecording := none,
    videoRecording := none }

/-- A snapshot with one section holding the required voice field. -/
def exampleSnapshot : FormSnapshot :=
  { customSections := some [{ fields := some [exampleVoiceField] }] }

/-- A submission whose responses satisfy the snapshot. -/
def exampleParams (responses : List ApplicationResponse) (snap : Option FormSnapshot) :
    SubmitParams :=
  { jobListingId := exampleObjectId,
    candidate := { name := "Ann", email := "Ann@Example.com", phone := none },
    responses := responses, formSnapshot := snap }

/-- A stored application of the example candidate. -/
def exampleApplication : Application :=
  mkSubmittedApplication (exampleParams [exampleVoiceResponse 30] (some exampleSnapshot)) 0 "a1"

/-- An embedded media entry. -/
def exampleMedia : MediaItem :=
  { id := "m1", url := "https://cdn/pic.png", mediaType := "image",
    caption := none, order := 0 }

/-- An unpublished but publishable job listing holding one media entry. -/
def exampleJob : JobListing :=
  { id := "j1", jobTitle := "Engineer", jobDescription := "Builds things",
    role := "engineer", slug := some "engineer-abc123def0", status := .draft,
    isPublished := false, publishedAt := none, views := 0, media := [exampleMedia] }

/-! ## Claims -/

/-- C10: when the submission carries no `formSnapshot`, or one without
`customSections`, or one with an empty `customSections` list, no per-field or
recording validation runs at all: provided the id is well-formed, no duplicate
(email, job) application exists, candidate name/email are non-empty and the
responses list is non-empty, the application is persisted regardless of the
contents of the responses. -/
theorem submitApplication_skips_validation_without_snapshot :
    ∀ (store : List Application) (p : SubmitParams) (now : Int) (newId : String),
      (p.formSnapshot = none ∨ p.formSnapshot = some { customSections := none } ∨
        p.formSnapshot = some { customSections := some [] }) →
      isValidObjectId p.jobListingId = true →
      getApplicationByEmailAndJob store p.candidate.email p.jobListingId = none →
      p.candidate.name ≠ "" → p.candidate.email ≠ "" → p.responses ≠ [] →
      submitApplication store p now newId =
        .ok (store ++ [mkSubmittedApplication p now newId],
              mkSubmittedApplication p now newId) := by
  intro store p now newId hsnap h1 h2 hname hemail hresp
  have hguard := submitApplication_guards store p now newId h1 h2
    (by intro hc; cases hc with
        | inl hc => exact hname hc
        | inr hc => exact hemail hc) hresp
  have hvalid : validateSnapshot p.responses p.formSnapshot = .ok () := by
    rcases hsnap with h | h | h <;> rw [h] <;> rfl
  rw [hguard, hvalid]

/-- Witness for C10 at a concrete snapshot-free submission whose single
response is an out-of-bounds recording: it is persisted anyway. -/
theorem submitApplication_skips_validation_without_snapshot_witness :
    submitApplication [] (exampleParams [exampleVoiceResponse 1] none) 0 "a1" =
      .ok ([mkSubmittedApplication (exampleParams [exampleVoiceResponse 1] none) 0 "a1"],
            mkSubmittedApplication (exampleParams [exampleVoiceResponse 1] none) 0 "a1") :=
  submitApplication_skips_validation_without_snapshot []
    (exampleParams [exampleVoiceResponse 1] none) 0 "a1" (Or.inl rfl) (by decide)
    rfl (by decide) (by decide) (by decide)

/-- C9: `bulkUpdateApplicationStatus` with any malformed id among the inputs
fails entirely with the validation error before touching the store; with all
ids well-formed and a status from the five-value enum it applies the status to
every matching application and returns the count of those actually changed. -/
theorem bulkUpdateApplicationStatus_contract :
    (∀ (store : List Application) (ids : List String) (status badId : String),
      badId ∈ ids → isValidObjectId badId = false →
      bulkUpdateApplicationStatus store ids status =
        .error "One or more invalid application IDs")
    ∧
    (∀ (store : List Application) (ids : List String) (status : String),
      ids ≠ [] → (∀ id ∈ ids, isValidObjectId id = true) →
      validStatuses.contains status = true →
      bulkUpdateApplicationStatus store ids status =
        .ok (store.map (fun a => if ids.contains a.id then { a with status := status } else a),
              (store.filter (fun a => ids.contains a.id && a.status ≠ status)).length)
      ∧ ∀ a ∈ store.map (fun a => if ids.contains a.id then { a with status := status } else a),
          ids.contains a.id = true → a.status = status) := by
  constructor
  · intro store ids status badId hmem hbad
    unfold bulkUpdateApplicationStatus
    have hne : ids ≠ [] := List.ne_nil_of_mem hmem
    have hfil : badId ∈ ids.filter (fun id => !(isValidObjectId id)) :=
      List.mem_filter.mpr ⟨hmem, by simp [hbad]⟩
    rw [if_neg (by simp [List.isEmpty_iff, hne]), if_pos]
    exact List.length_pos.mpr (List.ne_nil_of_mem hfil)
  · intro store ids status hne hvalid hstatus
    have hfil : ids.filter (fun id => !(isValidObjectId id)) = [] := by
      rw [List.filter_eq_nil_iff]
      intro a ha
      simp [hvalid a ha]
    constructor
    · unfold bulkUpdateApplicationStatus
      rw [if_neg (by simp [List.isEmpty_iff, hne]), hfil, if_neg (by decide), hstatus]
      simp
    · intro a ha hcont
      rcases List.mem_map.mp ha with ⟨b, _, hb⟩
      by_cases hc : ids.contains b.id = true
      · rw [if_pos hc] at hb
        rw [← hb]
      · rw [if_neg hc] at hb
        rw [← hb] at hcont
        exact absurd hcont hc

/-- A stored application whose id is a syntactically valid ObjectId. -/
def exampleStoredApplication : Application :=
  { exampleApplication with id := "a1a1a1a1a1a1" }

/-- Witness for C9: a malformed id among valid ones aborts with the validation
error; a well-formed id with a valid status updates the matching document. -/
theorem bulkUpdateApplicationStatus_contract_witness :
    bulkUpdateApplicationStatus [exampleStoredApplication] ["nonsense", exampleObjectId] "accepted" =
      .error "One or more invalid application IDs"
    ∧ bulkUpdateApplicationStatus [exampleStoredApplication] ["a1a1a1a1a1a1"] "accepted" =
        .ok ([{ exampleStoredApplication with status := "accepted" }], 1) := by
  constructor
  · exact bulkUpdateApplicationStatus_contract.1 [exampleStoredApplication]
      ["nonsense", exampleObjectId] "accepted" "nonsense" (by decide) (by decide)
  · have h := (bulkUpdateApplicationStatus_contract.2 [exampleStoredApplication]
      ["a1a1a1a1a1a1"] "accepted" (by decide) (by decide) (by decide)).1
    rw [h]
    rfl

/-- C1: for every field declared in the snapshot, a missing response fails
submission with `Required field missing: <fieldLabel>` when the field is
required; a matching `voice_recording` response without a `voiceRecording.url`
fails with a message naming the label exactly when the field is required and
passes the field otherwise; any required-and-unanswered snapshot field makes
`submitApplication` fail once the top-level guards pass. -/
theorem submitApplication_required_field_validation :
    (∀ (responses : List ApplicationResponse) (field : FormField),
      responses.find? (fun r => r.fieldName = field.fieldName) = none →
      field.isRequired = true →
      validateField responses field =
        .error ("Required field missing: " ++ field.fieldLabel))
    ∧
    (∀ (responses : List ApplicationResponse) (field : FormField)
       (response : ApplicationResponse),
      responses.find? (fun r => r.fieldName = field.fieldName) = some response →
      response.fieldType = "voice_recording" →
      recPresent response.voiceRecording = false →
      validateField responses field =
        (if field.isRequired then
          .error ("Voice recording is required for field: " ++ response.fieldLabel)
        else .ok ()))
    ∧
    (∀ (store : List Application) (p : SubmitParams) (now : Int) (newId : String)
       (snap : FormSnapshot) (sections : List FormSection) (s : FormSection)
       (fs : List FormField) (field : FormField),
      isValidObjectId p.jobListingId = true →
      getApplicationByEmailAndJob store p.candidate.email p.jobListingId = none →
      p.candidate.name ≠ "" → p.candidate.email ≠ "" → p.responses ≠ [] →
      p.formSnapshot = some snap → snap.customSections = some sections →
      s ∈ sections → s.fields = some fs → field ∈ fs → field.isRequired = true →
      p.responses.find? (fun r => r.fieldName = field.fieldName) = none →
      ∃ e, submitApplication store p now newId = .error e) := by
  refine ⟨?_, ?_, ?_⟩
  · intro responses field hfind hreq
    exact validateField_missing_required responses field hfind hreq
  · intro responses field response hfind hvoice hnourl
    have hv : validateField responses field =
        validateRecordingResponse response (some field) := by
      unfold validateField
      rw [hfind]
    rw [hv]
    by_cases hreq : field.isRequired = true
    · simp [validateRecordingResponse, hvoice, checkRecording, hnourl, fieldIsRequired, hreq]
    · simp [validateRecordingResponse, hvoice, checkRecording, hnourl, fieldIsRequired, hreq]
  · intro store p now newId snap sections s fs field h1 h2 hname hemail hresp
      hsnap hsecs hsmem hfs hfmem hreq hfind
    have hfield : validateField p.responses field =
        .error ("Required field missing: " ++ field.fieldLabel) :=
      validateField_missing_required p.responses field hfind hreq
    obtain ⟨cs⟩ := snap
    simp only at hsecs
    subst hsecs
    obtain ⟨sf⟩ := s
    simp only at hfs
    subst hfs
    have hne : validateSnapshot p.responses p.formSnapshot ≠ .ok () := by
      have hsnapeq : validateSnapshot p.responses p.formSnapshot =
          validateSections p.responses sections := by
        rw [hsnap]
        rfl
      rw [hsnapeq]
      intro hok
      have hsec := (validateSections_ok_iff p.responses sections).mp hok _ hsmem
      have hsec2 : validateFields p.responses fs = .ok () := hsec
      have hf := (validateFields_ok_iff p.responses fs).mp hsec2 field hfmem
      rw [hfield] at hf
      cases hf
    rcases exceptUnit_error_of_ne_ok hne with ⟨e, he⟩
    refine ⟨e, ?_⟩
    rw [submitApplication_guards store p now newId h1 h2
      (by intro hc; cases hc with
          | inl hc => exact hname hc
          | inr hc => exact hemail hc) hresp, he]

/-- Witness for C1: a snapshot demanding the required voice field fails a
submission with no matching response, and a response lacking the recording url
fails the field-level validation with the message naming the label. -/
theorem submitApplication_required_field_validation_witness :
    validateField [] exampleVoiceField =
      .error "Required field missing: Intro voice note"
    ∧ validateField [exampleVoiceResponseNoUrl] exampleVoiceField =
        .error "Voice recording is required for field: Intro voice note"
    ∧ ∃ e, submitApplication [] (exampleParams [exampleTextResponse] (some exampleSnapshot))
        0 "a1" = .error e := by
  refine ⟨?_, ?_, ?_⟩
  · exact submitApplication_required_field_validation.1 [] exampleVoiceField rfl rfl
  · have h := submitApplication_required_field_validation.2.1 [exampleVoiceResponseNoUrl]
      exampleVoiceField exampleVoiceResponseNoUrl (by decide) rfl (by decide)
    rw [h]
    rfl
  · exact submitApplication_required_field_validation.2.2 []
      (exampleParams [exampleTextResponse] (some exampleSnapshot)) 0 "a1"
      exampleSnapshot [{ fields := some [exampleVoiceField] }]
      { fields := some [exampleVoiceField] } [exampleVoiceField] exampleVoiceField
      (by decide) rfl (by decide) (by decide) (by decide) rfl rfl
      (by decide) rfl (by decide) rfl (by decide)

/-- With a concrete duration and a positive bound, `checkMinDuration` is the
strict comparison against the bound. -/
theorem checkMinDuration_some (kind lbl : String) (d m : Int) (hm : 0 < m) :
    checkMinDuration kind lbl (some d) (some m) =
      (if d < m then
        .error (kind ++ " recording for " ++ lbl ++ " must be at least " ++ toString m ++ " seconds")
      else .ok ()) := by
  unfold checkMinDuration
  have hm0 : m ≠ 0 := by omega
  simp [optLtB, hm0]

/-- With a concrete duration and a positive bound, `checkMaxDuration` is the
strict comparison against the bound. -/
theorem checkMaxDuration_some (kind lbl : String) (d m : Int) (hm : 0 < m) :
    checkMaxDuration kind lbl (some d) (some m) =
      (if m < d then
        .error (kind ++ " recording for " ++ lbl ++ " cannot exceed " ++ toString m ++ " seconds")
      else .ok ()) := by
  unfold checkMaxDuration
  have hm0 : m ≠ 0 := by omega
  simp [optGtB, hm0]

/-- `checkRecording` on a present recording with positive configured bounds:
it succeeds exactly when the duration respects every configured bound, and the
error message cites the violated bound. -/
theorem checkRecording_present (kind lbl : String) (rec : Recording) (required : Bool)
    (mn mx : Option Int) (d : Int)
    (hurl : strTruthy rec.url = true) (hd : rec.duration = some d)
    (hmin : ∀ m, mn = some m → 0 < m) (hmax : ∀ m, mx = some m → 0 < m) :
    (checkRecording kind lbl (some rec) required (some ⟨mn, mx⟩) = .ok () ↔
      ((∀ m, mn = some m → m ≤ d) ∧ (∀ m, mx = some m → d ≤ m)))
    ∧ (∀ m, mn = some m → d < m →
        checkRecording kind lbl (some rec) required (some ⟨mn, mx⟩) =
          .error (kind ++ " recording for " ++ lbl ++ " must be at least " ++ toString m ++ " seconds"))
    ∧ (∀ m, mx = some m → (∀ m2, mn = some m2 → m2 ≤ d) → m < d →
        checkRecording kind lbl (some rec) required (some ⟨mn, mx⟩) =
          .error (kind ++ " recording for " ++ lbl ++ " cannot exceed " ++ toString m ++ " seconds")) := by
  have hbase : checkRecording kind lbl (some rec) required (some ⟨mn, mx⟩) =
      (match checkMinDuration kind lbl (some d) mn with
      | .error e => .error e
      | .ok () => checkMaxDuration kind lbl (some d) mx) := by
    unfold checkRecording
    rw [show recPresent (some rec) = true from hurl]
    simp only [Bool.not_true, Bool.false_eq_true, if_false]
    rw [show recDuration (some rec) = some d from hd]
  simp only [hbase]
  cases mn with
  | none =>
    cases mx with
    | none => simp [checkMinDuration, checkMaxDuration]
    | some M =>
      have hM := hmax M rfl
      simp only [checkMinDuration, checkMaxDuration_some kind lbl d M hM]
      by_cases hMd : M < d
      · simp only [if_pos hMd]
        refine ⟨?_, ?_, ?_⟩
        · constructor
          · intro hc; cases hc
          · intro ⟨_, hall⟩
            have := hall M rfl
            omega
        · intro m hm; cases hm
        · intro m hm _ _
          cases hm
          rfl
      · simp only [if_neg hMd]
        refine ⟨?_, ?_, ?_⟩
        · constructor
          · intro _
            exact ⟨(fun m hm => nomatch hm), (fun m hm => by cases hm; omega)⟩
          · intro _; trivial
        · intro m hm; cases hm
        · intro m hm _ hlt
          cases hm
          omega
  | some m0 =>
    have hm0 := hmin m0 rfl
    simp only [checkMinDuration_some kind lbl d m0 hm0]
    by_cases hmd : d < m0
    · simp only [if_pos hmd]
      refine ⟨?_, ?_, ?_⟩
      · constructor
        · intro hc; cases hc
        · intro ⟨hall, _⟩
          have := hall m0 rfl
          omega
      · intro m hm hlt
        cases hm
        rfl
      · intro m hm hge _
        have := hge m0 rfl
        omega
    · simp only [if_neg hmd]
      cases mx with
      | none =>
        simp only [checkMaxDuration]
        refine ⟨?_, ?_, ?_⟩
        · constructor
          · intro _
            exact ⟨(fun m hm => by cases hm; omega), (fun m hm => nomatch hm)⟩
          · intro _; trivial
        · intro m hm hlt
          cases hm
          omega
        · intro m hm; cases hm
      | some M =>
        have hM := hmax M rfl
        simp only [checkMaxDuration_some kind lbl d M hM]
        by_cases hMd : M < d
        · simp only [if_pos hMd]
          refine ⟨?_, ?_, ?_⟩
          · constructor
            · intro hc; cases hc
            · intro ⟨_, hall⟩
              have := hall M rfl
              omega
          · intro m hm hlt
            cases hm
            omega
          · intro m hm _ _
            cases hm
            rfl
        · simp only [if_neg hMd]
          refine ⟨?_, ?_, ?_⟩
          · constructor
            · intro _
              exact ⟨(fun m hm => by cases hm; omega), (fun m hm => by cases hm; omega)⟩
            · intro _; trivial
          · intro m hm hlt
            cases hm
            omega
          · intro m hm _ hlt
            cases hm
            omega

/-- On a `voice_recording` response, `validateRecordingResponse` is exactly the
voice `checkRecording` against the field's flags. -/
theorem validateRecordingResponse_voice (response : ApplicationResponse) (field : FormField)
    (hvoice : response.fieldType = "voice_recording") :
    validateRecordingResponse response (some field) =
      checkRecording "Voice" response.fieldLabel response.voiceRecording
        field.isRequired field.recordingConfig := by
  unfold validateRecordingResponse
  rw [hvoice]
  simp only [fieldIsRequired, fieldRecordingConfig, if_pos]
  have hne : ("voice_recording" = "video_recording") = False := by simp
  simp only [hne, if_false]
  cases h : checkRecording "Voice" response.fieldLabel response.voiceRecording
      field.isRequired field.recordingConfig with
  | error e => simp
  | ok u => cases u; simp

/-- On a `video_recording` response, `validateRecordingResponse` is exactly the
video `checkRecording` against the field's flags. -/
theorem validateRecordingResponse_video (response : ApplicationResponse) (field : FormField)
    (hvid : response.fieldType = "video_recording") :
    validateRecordingResponse response (some field) =
      checkRecording "Video" response.fieldLabel response.videoRecording
        field.isRequired field.recordingConfig := by
  unfold validateRecordingResponse
  rw [hvid]
  simp [fieldIsRequired, fieldRecordingConfig]

/-- C2: a voice (or, symmetrically, video) response carrying a recording url
validated against a field whose `recordingConfig` has positive
`minDuration`/`maxDuration` bounds succeeds iff the duration lies within every
configured bound, fails citing the minimum when the duration is strictly below
`minDuration`, and fails citing the maximum when it is strictly above
`maxDuration`. -/
theorem recording_duration_bounds :
    (∀ (response : ApplicationResponse) (field : FormField) (rec : Recording)
       (cfg : RecordingConfig) (d : Int),
      response.fieldType = "voice_recording" →
      response.voiceRecording = some rec →
      strTruthy rec.url = true → rec.duration = some d →
      field.recordingConfig = some cfg →
      (∀ m, cfg.minDuration = some m → 0 < m) →
      (∀ m, cfg.maxDuration = some m → 0 < m) →
      (validateRecordingResponse response (some field) = .ok () ↔
        ((∀ m, cfg.minDuration = some m → m ≤ d) ∧ (∀ m, cfg.maxDuration = some m → d ≤ m)))
      ∧ (∀ m, cfg.minDuration = some m → d < m →
          validateRecordingResponse response (some field) =
            .error ("Voice recording for " ++ response.fieldLabel ++
              " must be at least " ++ toString m ++ " seconds"))
      ∧ (∀ m, cfg.maxDuration = some m → (∀ m2, cfg.minDuration = some m2 → m2 ≤ d) → m < d →
          validateRecordingResponse response (some field) =
            .error ("Voice recording for " ++ response.fieldLabel ++
              " cannot exceed " ++ toString m ++ " seconds")))
    ∧
    (∀ (response : ApplicationResponse) (field : FormField) (rec : Recording)
       (cfg : RecordingConfig) (d : Int),
      response.fieldType = "video_recording" →
      response.videoRecording = some rec →
      strTruthy rec.url = true → rec.duration = some d →
      field.recordingConfig = some cfg →
      (∀ m, cfg.minDuration = some m → 0 < m) →
      (∀ m, cfg.maxDuration = some m → 0 < m) →
      (validateRecordingResponse response (some field) = .ok () ↔
        ((∀ m, cfg.minDuration = some m → m ≤ d) ∧ (∀ m, cfg.maxDuration = some m → d ≤ m)))
      ∧ (∀ m, cfg.minDuration = some m → d < m →
          validateRecordingResponse response (some field) =
            .error ("Video recording for " ++ response.fieldLabel ++
              " must be at least " ++ toString m ++ " seconds"))
      ∧ (∀ m, cfg.maxDuration = some m → (∀ m2, cfg.minDuration = some m2 → m2 ≤ d) → m < d →
          validateRecordingResponse response (some field) =
            .error ("Video recording for " ++ response.fieldLabel ++
              " cannot exceed " ++ toString m ++ " seconds"))) := by
  constructor
  · intro response field rec cfg d hvoice hrec hurl hd hcfg hmin hmax
    obtain ⟨mn, mx⟩ := cfg
    simp only [validateRecordingResponse_voice response field hvoice, hrec, hcfg]
    exact checkRecording_present "Voice" response.fieldLabel rec field.isRequired
      mn mx d hurl hd hmin hmax
  · intro response field rec cfg d hvid hrec hurl hd hcfg hmin hmax
    obtain ⟨mn, mx⟩ := cfg
    simp only [validateRecordingResponse_video response field hvid, hrec, hcfg]
    exact checkRecording_present "Video" response.fieldLabel rec field.isRequired
      mn mx d hurl hd hmin hmax

/-- Witness for C2: against the 10–60 second voice field, a 5-second recording
fails citing the minimum; a 10-second one passes; a 61-second one fails citing
the maximum. -/
theorem recording_duration_bounds_witness :
    validateRecordingResponse (exampleVoiceResponse 5) (some exampleVoiceField) =
      .error "Voice recording for Intro voice note must be at least 10 seconds"
    ∧ validateRecordingResponse (exampleVoiceResponse 10) (some exampleVoiceField) = .ok ()
    ∧ validateRecordingResponse (exampleVoiceResponse 61) (some exampleVoiceField) =
        .error "Voice recording for Intro voice note cannot exceed 60 seconds" := by
  refine ⟨?_, ?_, ?_⟩
  · have h := (recording_duration_bounds.1 (exampleVoiceResponse 5) exampleVoiceField
      { url := some "https://cdn/x.webm", duration := some 5, format := some "webm",
        uploadedAt := none }
      { minDuration := some 10, maxDuration := some 60 } 5 rfl rfl (by decide) rfl rfl
      (by intro m hm; cases hm; omega) (by intro m hm; cases hm; omega)).2.1 10 rfl (by omega)
    rw [h]
    rfl
  · exact (recording_duration_bounds.1 (exampleVoiceResponse 10) exampleVoiceField
      { url := some "https://cdn/x.webm", duration := some 10, format := some "webm",
        uploadedAt := none }
      { minDuration := some 10, maxDuration := some 60 } 10 rfl rfl (by decide) rfl rfl
      (by intro m hm; cases hm; omega) (by intro m hm; cases hm; omega)).1.mpr
      ⟨by intro m hm; cases hm; omega, by intro m hm; cases hm; omega⟩
  · have h := (recording_duration_bounds.1 (exampleVoiceResponse 61) exampleVoiceField
      { url := some "https://cdn/x.webm", duration := some 61, format := some "webm",
        uploadedAt := none }
      { minDuration := some 10, maxDuration := some 60 } 61 rfl rfl (by decide) rfl rfl
      (by intro m hm; cases hm; omega) (by intro m hm; cases hm; omega)).2.2 60 rfl
      (by intro m hm; cases hm; omega) (by omega)
    rw [h]
    rfl

/-- Inversion of a successful `submitApplication`: all guards passed, the
snapshot validated, and the result appends the created document. -/
theorem submitApplication_ok_inv (store : List Application) (p : SubmitParams)
    (now : Int) (newId : String) (st : List Application) (app : Application)
    (h : submitApplication store p now newId = .ok (st, app)) :
    isValidObjectId p.jobListingId = true
    ∧ getApplicationByEmailAndJob store p.candidate.email p.jobListingId = none
    ∧ ¬(p.candidate.name = "" ∨ p.candidate.email = "")
    ∧ p.responses ≠ []
    ∧ validateSnapshot p.responses p.formSnapshot = .ok ()
    ∧ st = store ++ [mkSubmittedApplication p now newId]
    ∧ app = mkSubmittedApplication p now newId := by
  unfold submitApplication at h
  split at h
  next hc => exact absurd h (by simp)
  next hc =>
    split at h
    next hdup => exact absurd h (by simp)
    next hdup =>
      split at h
      next hcand => exact absurd h (by simp)
      next hcand =>
        split at h
        next hresp => exact absurd h (by simp)
        next hresp =>
          split at h
          next e heq => exact absurd h (by simp)
          next u heq =>
            simp only [Except.ok.injEq, Prod.mk.injEq] at h
            refine ⟨by simpa using hc, ?_, hcand, ?_, heq, h.1.symm, h.2.symm⟩
            · cases hx : getApplicationByEmailAndJob store p.candidate.email p.jobListingId with
              | none => rfl
              | some a => rw [hx] at hdup; simp at hdup
            · intro hnil
              rw [hnil] at hresp
              simp at hresp

/-- C3: once a submission for a (candidate email, job listing) pair has been
accepted, a second submission for the same pair — however the email is cased —
fails with the already-applied conflict, and the first application stays in
the store. -/
theorem one_application_per_candidate_job :
    ∀ (store : List Application) (p p2 : SubmitParams) (now now2 : Int)
      (id1 id2 : String) (st : List Application) (app : Application),
      submitApplication store p now id1 = .ok (st, app) →
      toLowerStr p2.candidate.email = toLowerStr p.candidate.email →
      p2.jobListingId = p.jobListingId →
      submitApplication st p2 now2 id2 = .error "You have already applied for this job"
      ∧ app ∈ st := by
  intro store p p2 now now2 id1 id2 st app h hmail hjid
  obtain ⟨h1, _, _, _, _, hst, happ⟩ := submitApplication_ok_inv store p now id1 st app h
  subst hst happ
  constructor
  · have hp : (fun a => a.candidate.email = toLowerStr p2.candidate.email
        && a.jobListingId = p.jobListingId) (mkSubmittedApplication p now id1) = true := by
      simp [mkSubmittedApplication, hmail]
    have hfound : (getApplicationByEmailAndJob
        (store ++ [mkSubmittedApplication p now id1]) p2.candidate.email
        p.jobListingId).isSome = true := by
      unfold getApplicationByEmailAndJob
      have hone : List.find?
          (fun a => a.candidate.email = toLowerStr p2.candidate.email
            && a.jobListingId = p.jobListingId)
          [mkSubmittedApplication p now id1] =
          some (mkSubmittedApplication p now id1) :=
        List.find?_cons_of_pos [] hp
      rw [List.find?_append, hone]
      cases List.find? _ store <;> simp [Option.or]
    unfold submitApplication
    rw [hjid, h1]
    simp only [Bool.not_true, Bool.false_eq_true, if_false]
    rw [hfound]
    simp
  · exact List.mem_append_right _ (by simp)

/-- Witness for C3: the example submission succeeds on an empty store and a
resubmission of the same candidate and job listing is rejected. -/
theorem one_application_per_candidate_job_witness :
    submitApplication
        (([] : List Application) ++ [mkSubmittedApplication
          (exampleParams [exampleVoiceResponse 30] (some exampleSnapshot)) 0 "a1"])
        (exampleParams [exampleVoiceResponse 30] (some exampleSnapshot)) 1 "a2" =
      .error "You have already applied for this job" :=
  (one_application_per_candidate_job []
    (exampleParams [exampleVoiceResponse 30] (some exampleSnapshot))
    (exampleParams [exampleVoiceResponse 30] (some exampleSnapshot)) 0 1 "a1" "a2"
    ([] ++ [mkSubmittedApplication
      (exampleParams [exampleVoiceResponse 30] (some exampleSnapshot)) 0 "a1"])
    (mkSubmittedApplication
      (exampleParams [exampleVoiceResponse 30] (some exampleSnapshot)) 0 "a1")
    (by rfl) rfl rfl).1

/-! ## Job listing helper lemmas -/

/-- `replaceFirst` transforms exactly the first hit of `find?`. -/
theorem find?_replaceFirst (p : α → Bool) (f : α → α) (l : List α) (a : α)
    (h : l.find? p = some a) (hf : p (f a) = true) :
    (replaceFirst p f l).find? p = some (f a) := by
  induction l with
  | nil => cases h
  | cons x xs ih =>
    by_cases hx : p x
    · rw [List.find?_cons_of_pos xs hx] at h
      cases h
      unfold replaceFirst
      rw [if_pos hx]
      exact List.find?_cons_of_pos xs hf
    · rw [List.find?_cons_of_neg xs hx] at h
      unfold replaceFirst
      rw [if_neg hx, List.find?_cons_of_neg _ hx]
      exact ih h

/-- `replaceFirst` is the identity when the transform fixes the found hit. -/
theorem replaceFirst_eq_of_fix (p : α → Bool) (f : α → α) (l : List α) (a : α)
    (h : l.find? p = some a) (hf : f a = a) :
    replaceFirst p f l = l := by
  induction l with
  | nil => rfl
  | cons x xs ih =>
    by_cases hx : p x
    · rw [List.find?_cons_of_pos xs hx] at h
      cases h
      unfold replaceFirst
      rw [if_pos hx, hf]
    · rw [List.find?_cons_of_neg xs hx] at h
      unfold replaceFirst
      rw [if_neg hx, ih h]

/-- `findAndUpdate` on a store whose `find?` hits. -/
theorem findAndUpdate_some (store : List JobListing) (p : JobListing → Bool)
    (f : JobListing → JobListing) (j : JobListing) (h : store.find? p = some j) :
    findAndUpdate store p f = some (replaceFirst p f store, f j) := by
  unfold findAndUpdate
  rw [h]

/-- `findAndUpdate` on a store whose `find?` misses. -/
theorem findAndUpdate_none (store : List JobListing) (p : JobListing → Bool)
    (f : JobListing → JobListing) (h : store.find? p = none) :
    findAndUpdate store p f = none := by
  unfold findAndUpdate
  rw [h]

/-- `publishJobListing` when the listing is found: the remaining behavior. -/
theorem publishJobListing_found (store : List JobListing) (jobId : String)
    (now : Int) (j : JobListing) (hne : ¬(jobId = ""))
    (hdoc : getJobListingDoc store jobId = some j) :
    publishJobListing store jobId now =
      (if j.jobTitle = "" ∨ j.jobDescription = "" ∨ j.role = "" then
        .error "Job listing must have title, description, and role to be published"
      else if j.isPublished then .error "Job listing is already published"
      else
        match repoPublishJobListing store jobId now with
        | none => .error "Failed to publish job listing"
        | some (st, jj) => .ok (st, jj)) := by
  unfold publishJobListing
  rw [if_neg hne, hdoc]

/-- `unpublishJobListing` when the listing is found: the remaining behavior. -/
theorem unpublishJobListing_found (store : List JobListing) (jobId : String)
    (j : JobListing) (hne : ¬(jobId = ""))
    (hdoc : getJobListingDoc store jobId = some j) :
    unpublishJobListing store jobId =
      (if !j.isPublished then .error "Job listing is not published"
      else
        match repoUnpublishJobListing store jobId with
        | none => .error "Failed to unpublish job listing"
        | some (st, jj) => .ok (st, jj)) := by
  unfold unpublishJobListing
  rw [if_neg hne, hdoc]

/-- Inversion of a successful `publishJobListing`: the listing existed
unpublished with its required fields non-empty, and the result applies
`publishUpdate` to it inside the store. -/
theorem publishJobListing_ok_inv (store : List JobListing) (jobId : String)
    (now : Int) (st : List JobListing) (j : JobListing)
    (h : publishJobListing store jobId now = .ok (st, j)) :
    ¬(jobId = "")
    ∧ ∃ j0, getJobListingDoc store jobId = some j0
        ∧ ¬(j0.jobTitle = "" ∨ j0.jobDescription = "" ∨ j0.role = "")
        ∧ j0.isPublished = false
        ∧ j = publishUpdate now j0
        ∧ st = replaceFirst (fun x => x.id = jobId) (publishUpdate now) store := by
  unfold publishJobListing at h
  split at h
  next hempty => exact absurd h (by simp)
  next hempty =>
    split at h
    next heq => exact absurd h (by simp)
    next j0 heq =>
      split at h
      next hfields => exact absurd h (by simp)
      next hfields =>
        split at h
        next hpub => exact absurd h (by simp)
        next hpub =>
          rw [show repoPublishJobListing store jobId now =
              some (replaceFirst (fun x => x.id = jobId) (publishUpdate now) store,
                publishUpdate now j0) from
            findAndUpdate_some store _ _ j0 heq] at h
          simp only [Except.ok.injEq, Prod.mk.injEq] at h
          exact ⟨hempty, j0, heq, hfields, by simpa using hpub, h.2.symm, h.1.symm⟩

/-- Inversion of a successful `unpublishJobListing`. -/
theorem unpublishJobListing_ok_inv (store : List JobListing) (jobId : String)
    (st : List JobListing) (j : JobListing)
    (h : unpublishJobListing store jobId = .ok (st, j)) :
    ¬(jobId = "")
    ∧ ∃ j0, getJobListingDoc store jobId = some j0
        ∧ j0.isPublished = true
        ∧ j = unpublishUpdate j0
        ∧ st = replaceFirst (fun x => x.id = jobId) unpublishUpdate store := by
  unfold unpublishJobListing at h
  split at h
  next hempty => exact absurd h (by simp)
  next hempty =>
    split at h
    next heq => exact absurd h (by simp)
    next j0 heq =>
      split at h
      next hpub => exact absurd h (by simp)
      next hpub =>
        rw [show repoUnpublishJobListing store jobId =
            some (replaceFirst (fun x => x.id = jobId) unpublishUpdate store,
              unpublishUpdate j0) from
          findAndUpdate_some store _ _ j0 heq] at h
        simp only [Except.ok.injEq, Prod.mk.injEq] at h
        exact ⟨hempty, j0, heq, by simpa using hpub, h.2.symm, h.1.symm⟩

/-- A `find?` hit by id means the hit carries that id. -/
theorem getJobListingDoc_id (store : List JobListing) (jobId : String)
    (j : JobListing) (h : getJobListingDoc store jobId = some j) : j.id = jobId := by
  have := List.find?_some h
  simpa using this

/-- C5: publishing an already-published listing fails with the
already-published conflict — in particular a successful publish followed by a
second publish fails the second time — and unpublishing a listing that is not
published fails with the not-published conflict, likewise for
unpublish→unpublish. -/
theorem publish_unpublish_conflicts :
    (∀ (store : List JobListing) (jobId : String) (now : Int) (j : JobListing),
      ¬(jobId = "") → getJobListingDoc store jobId = some j →
      ¬(j.jobTitle = "" ∨ j.jobDescription = "" ∨ j.role = "") →
      j.isPublished = true →
      publishJobListing store jobId now = .error "Job listing is already published")
    ∧
    (∀ (store : List JobListing) (jobId : String) (j : JobListing),
      ¬(jobId = "") → getJobListingDoc store jobId = some j →
      j.isPublished = false →
      unpublishJobListing store jobId = .error "Job listing is not published")
    ∧
    (∀ (store : List JobListing) (jobId : String) (now now2 : Int)
       (st : List JobListing) (j : JobListing),
      publishJobListing store jobId now = .ok (st, j) →
      publishJobListing st jobId now2 = .error "Job listing is already published")
    ∧
    (∀ (store : List JobListing) (jobId : String)
       (st : List JobListing) (j : JobListing),
      unpublishJobListing store jobId = .ok (st, j) →
      unpublishJobListing st jobId = .error "Job listing is not published") := by
  refine ⟨?_, ?_, ?_, ?_⟩
  · intro store jobId now j hne hdoc hfields hpub
    rw [publishJobListing_found store jobId now j hne hdoc, if_neg hfields, if_pos hpub]
  · intro store jobId j hne hdoc hpub
    rw [unpublishJobListing_found store jobId j hne hdoc, if_pos (by simp [hpub])]
  · intro store jobId now now2 st j h
    obtain ⟨hne, j0, hdoc, hfields, _, hj, hst⟩ := publishJobListing_ok_inv store jobId now st j h
    have hid : j0.id = jobId := getJobListingDoc_id store jobId j0 hdoc
    have hdoc2 : getJobListingDoc st jobId = some (publishUpdate now j0) := by
      rw [hst]
      exact find?_replaceFirst _ _ store j0 hdoc (by simp [publishUpdate, hid])
    rw [publishJobListing_found st jobId now2 (publishUpdate now j0) hne hdoc2,
      if_neg (by simpa [publishUpdate] using hfields), if_pos (by simp [publishUpdate])]
  · intro store jobId st j h
    obtain ⟨hne, j0, hdoc, _, hj, hst⟩ := unpublishJobListing_ok_inv store jobId st j h
    have hid : j0.id = jobId := getJobListingDoc_id store jobId j0 hdoc
    have hdoc2 : getJobListingDoc st jobId = some (unpublishUpdate j0) := by
      rw [hst]
      exact find?_replaceFirst _ _ store j0 hdoc (by simp [unpublishUpdate, hid])
    rw [unpublishJobListing_found st jobId (unpublishUpdate j0) hne hdoc2,
      if_pos (by simp [unpublishUpdate])]

/-- Witness for C5: the example listing publishes once and conflicts on the
second publish; unpublishing the never-published listing conflicts at once. -/
theorem publish_unpublish_conflicts_witness :
    publishJobListing
        (replaceFirst (fun x => x.id = "j1") (publishUpdate 5) [exampleJob]) "j1" 6 =
      .error "Job listing is already published"
    ∧ unpublishJobListing [exampleJob] "j1" = .error "Job listing is not published" := by
  constructor
  · exact publish_unpublish_conflicts.2.2.1 [exampleJob] "j1" 5 6
      (replaceFirst (fun x => x.id = "j1") (publishUpdate 5) [exampleJob])
      (publishUpdate 5 exampleJob) (by rfl)
  · exact publish_unpublish_conflicts.2.1 [exampleJob] "j1" exampleJob
      (by decide) rfl rfl

/-- C7: `publish(id)` fails with the not-found error when no listing has that
id; fails with the validation error whenever title, description, or role is
empty (in particular a missing description); and a successful publish returns
a listing with `isPublished = true`, `publishedAt = now`, and `status = active`. -/
theorem publishJobListing_contract :
    (∀ (store : List JobListing) (jobId : String) (now : Int),
      ¬(jobId = "") → getJobListingDoc store jobId = none →
      publishJobListing store jobId now = .error "Job listing not found")
    ∧
    (∀ (store : List JobListing) (jobId : String) (now : Int) (j : JobListing),
      ¬(jobId = "") → getJobListingDoc store jobId = some j →
      (j.jobTitle = "" ∨ j.jobDescription = "" ∨ j.role = "") →
      publishJobListing store jobId now =
        .error "Job listing must have title, description, and role to be published")
    ∧
    (∀ (store : List JobListing) (jobId : String) (now : Int)
       (st : List JobListing) (j : JobListing),
      publishJobListing store jobId now = .ok (st, j) →
      j.isPublished = true ∧ j.publishedAt = some now ∧ j.status = JobStatus.active) := by
  refine ⟨?_, ?_, ?_⟩
  · intro store jobId now hne hdoc
    unfold publishJobListing
    rw [if_neg hne, hdoc]
  · intro store jobId now j hne hdoc hfields
    rw [publishJobListing_found store jobId now j hne hdoc, if_pos hfields]
  · intro store jobId now st j h
    obtain ⟨_, j0, _, _, _, hj, _⟩ := publishJobListing_ok_inv store jobId now st j h
    rw [hj]
    exact ⟨rfl, rfl, rfl⟩

/-- Witness for C7: an empty store yields not-found; the example listing with
its description blanked fails validation; publishing the example listing
succeeds with the published fields set. -/
theorem publishJobListing_contract_witness :
    publishJobListing [] "j1" 5 = .error "Job listing not found"
    ∧ publishJobListing [{ exampleJob with jobDescription := "" }] "j1" 5 =
        .error "Job listing must have title, description, and role to be published"
    ∧ ((publishUpdate 5 exampleJob).isPublished = true
        ∧ (publishUpdate 5 exampleJob).publishedAt = some 5
        ∧ (publishUpdate 5 exampleJob).status = JobStatus.active) := by
  refine ⟨?_, ?_, ?_⟩
  · exact publishJobListing_contract.1 [] "j1" 5 (by decide) rfl
  · exact publishJobListing_contract.2.1 [{ exampleJob with jobDescription := "" }] "j1" 5
      { exampleJob with jobDescription := "" } (by decide) rfl (Or.inr (Or.inl rfl))
  · exact publishJobListing_contract.2.2 [exampleJob] "j1" 5
      (replaceFirst (fun x => x.id = "j1") (publishUpdate 5) [exampleJob])
      (publishUpdate 5 exampleJob) (by rfl)

/-- `getJobListingById` when the listing is found: the remaining behavior. -/
theorem getJobListingById_found (store : List JobListing) (jobId : String)
    (inc : Bool) (j : JobListing) (hne : ¬(jobId = ""))
    (hdoc : getJobListingDoc store jobId = some j) :
    getJobListingById store jobId inc =
      (if inc && j.isPublished then
        match repoIncrementViews store jobId with
        | none => .ok (store, { j with views := j.views + 1 })
        | some (st, _) => .ok (st, { j with views := j.views + 1 })
      else .ok (store, j)) := by
  unfold getJobListingById
  rw [if_neg hne, hdoc]

/-- `getJobListingBySlug` when the listing is found: the remaining behavior. -/
theorem getJobListingBySlug_found (store : List JobListing) (slug : String)
    (inc : Bool) (j : JobListing) (hne : ¬(slug = ""))
    (hdoc : store.find? (fun x => x.slug = some slug) = some j) :
    getJobListingBySlug store slug inc =
      (if inc && j.isPublished then
        match repoIncrementViews store j.id with
        | none => .ok (store, { j with views := j.views + 1 })
        | some (st, _) => .ok (st, { j with views := j.views + 1 })
      else .ok (store, j)) := by
  unfold getJobListingBySlug
  rw [if_neg hne, hdoc]

/-- C8: fetching with `incrementViews = true` leaves the views counter of an
unpublished listing untouched (store returned unchanged), while for a
published listing both the returned document and the stored document carry
`views` incremented by exactly 1; the same holds for the slug-based fetch. -/
theorem incrementViews_only_when_published :
    (∀ (store : List JobListing) (jobId : String) (j : JobListing),
      ¬(jobId = "") → getJobListingDoc store jobId = some j →
      j.isPublished = false →
      getJobListingById store jobId true = .ok (store, j))
    ∧
    (∀ (store : List JobListing) (jobId : String) (j : JobListing),
      ¬(jobId = "") → getJobListingDoc store jobId = some j →
      j.isPublished = true →
      getJobListingById store jobId true =
        .ok (replaceFirst (fun x => x.id = jobId) incViewsUpdate store,
              { j with views := j.views + 1 })
      ∧ (replaceFirst (fun x => x.id = jobId) incViewsUpdate store).find?
          (fun x => x.id = jobId) = some { j with views := j.views + 1 })
    ∧
    (∀ (store : List JobListing) (slug : String) (j : JobListing),
      ¬(slug = "") → store.find? (fun x => x.slug = some slug) = some j →
      j.isPublished = false →
      getJobListingBySlug store slug true = .ok (store, j))
    ∧
    (∀ (store : List JobListing) (slug : String) (j : JobListing),
      ¬(slug = "") → store.find? (fun x => x.slug = some slug) = some j →
      j.isPublished = true →
      ∃ st, getJobListingBySlug store slug true =
        .ok (st, { j with views := j.views + 1 })) := by
  refine ⟨?_, ?_, ?_, ?_⟩
  · intro store jobId j hne hdoc hpub
    rw [getJobListingById_found store jobId true j hne hdoc, if_neg (by simp [hpub])]
  · intro store jobId j hne hdoc hpub
    have hid : j.id = jobId := getJobListingDoc_id store jobId j hdoc
    have hrepo : repoIncrementViews store jobId =
        some (replaceFirst (fun x => x.id = jobId) incViewsUpdate store,
          incViewsUpdate j) := by
      unfold repoIncrementViews
      exact findAndUpdate_some store _ _ j hdoc
    constructor
    · rw [getJobListingById_found store jobId true j hne hdoc,
        if_pos (by simp [hpub]), hrepo]
    · exact find?_replaceFirst _ _ store j hdoc (by simp [incViewsUpdate, hid])
  · intro store slug j hne hdoc hpub
    rw [getJobListingBySlug_found store slug true j hne hdoc, if_neg (by simp [hpub])]
  · intro store slug j hne hdoc hpub
    rw [getJobListingBySlug_found store slug true j hne hdoc, if_pos (by simp [hpub])]
    cases hrepo : repoIncrementViews store j.id with
    | none => exact ⟨store, rfl⟩
    | some pair => exact ⟨pair.1, by obtain ⟨a, b⟩ := pair; rfl⟩

/-- Witness for C8: the unpublished example listing keeps `views = 0` under an
increment-requesting fetch; once published it comes back with `views = 1` and
the store holds the incremented document. -/
theorem incrementViews_only_when_published_witness :
    getJobListingById [exampleJob] "j1" true = .ok ([exampleJob], exampleJob)
    ∧ getJobListingById [publishUpdate 5 exampleJob] "j1" true =
        .ok ([{ publishUpdate 5 exampleJob with views := 1 }],
              { publishUpdate 5 exampleJob with views := 1 }) := by
  constructor
  · exact incrementViews_only_when_published.1 [exampleJob] "j1" exampleJob
      (by decide) rfl rfl
  · have h := (incrementViews_only_when_published.2.1 [publishUpdate 5 exampleJob] "j1"
      (publishUpdate 5 exampleJob) (by decide) rfl rfl).1
    rw [h]
    rfl

/-- C4's counterexample: asking `updateMedia` to edit a media sub-id that is
not on the listing does NOT succeed — the compound-filter `findOneAndUpdate`
matches nothing, the repository returns null, and the service surfaces the
internal `Failed to update media` error. -/
theorem updateMedia_absent_subid_fails :
    updateMedia [exampleJob] "j1" "m2" (some "new caption") none =
      .error "Failed to update media" := by rfl

/-- C4 (amended): with a media sub-id matching no entry of the listing's media
list, `removeMediaFromJobListing` still succeeds, returning the listing and
leaving the store unchanged, while `updateMedia` fails with the internal
`Failed to update media` error. -/
theorem media_ops_absent_subid :
    ∀ (store : List JobListing) (jobId mediaId : String) (j : JobListing)
      (caption : Option String) (order : Option Int),
      ¬(jobId = "") → ¬(mediaId = "") →
      getJobListingDoc store jobId = some j →
      (∀ x ∈ store, x.id = jobId → ∀ m ∈ x.media, ¬(m.id = mediaId)) →
      removeMediaFromJobListing store jobId mediaId = .ok (store, j)
      ∧ updateMedia store jobId mediaId caption order =
          .error "Failed to update media" := by
  intro store jobId mediaId j caption order hjne hmne hdoc hnone
  have hid : j.id = jobId := getJobListingDoc_id store jobId j hdoc
  have hjmem : j ∈ store := List.mem_of_find?_eq_some hdoc
  have hfix : pullMediaUpdate mediaId j = j := by
    unfold pullMediaUpdate
    have hfilter : j.media.filter (fun m => !(m.id = mediaId)) = j.media := by
      rw [List.filter_eq_self]
      intro m hm
      simp [hnone j hjmem hid m hm]
    rw [hfilter]
  constructor
  · have hrepo : repoRemoveMediaFromJobListing store jobId mediaId = some (store, j) := by
      unfold repoRemoveMediaFromJobListing
      rw [findAndUpdate_some store _ _ j hdoc,
        replaceFirst_eq_of_fix _ _ store j hdoc hfix, hfix]
    unfold removeMediaFromJobListing
    rw [if_neg hjne, if_neg hmne, hdoc]
    simp only [hrepo]
  · have hq : store.find?
        (fun x => x.id = jobId && x.media.any (fun m => m.id = mediaId)) = none := by
      rw [List.find?_eq_none]
      intro x hx hcontra
      rw [Bool.and_eq_true] at hcontra
      obtain ⟨hxid, hany⟩ := hcontra
      rcases List.any_eq_true.mp hany with ⟨m, hm, hmid⟩
      exact hnone x hx (by simpa using hxid) m hm (by simpa using hmid)
    have hrepo : repoUpdateMedia store jobId mediaId caption order = none := by
      unfold repoUpdateMedia
      exact findAndUpdate_none store _ _ hq
    unfold updateMedia
    rw [if_neg hjne, if_neg hmne, hdoc]
    simp only [hrepo]

/-- Witness for the amended C4 at the example listing, which has media entry
`m1` but not `m2`. -/
theorem media_ops_absent_subid_witness :
    removeMediaFromJobListing [exampleJob] "j1" "m2" = .ok ([exampleJob], exampleJob)
    ∧ updateMedia [exampleJob] "j1" "m2" (some "new caption") none =
        .error "Failed to update media" :=
  media_ops_absent_subid [exampleJob] "j1" "m2" exampleJob (some "new caption") none
    (by decide) (by decide) rfl (by decide)

/-! ## Slug lemmas -/

/-- `pushHyphen` either prepends a hyphen or leaves a hyphen-headed list. -/
theorem pushHyphen_cases (l : List Char) : pushHyphen l = '-' :: l ∨ pushHyphen l = l := by
  unfold pushHyphen
  split
  next => right; rfl
  next => left; rfl

/-- Every character of the collapsed title is alphanumeric or a hyphen. -/
theorem collapseChars_charset : ∀ (l : List Char) (c : Char), c ∈ collapseChars l →
    isSlugChar c = true ∨ c = '-' := by
  intro l
  induction l with
  | nil => intro c h; cases h
  | cons x xs ih =>
    intro c h
    unfold collapseChars at h
    by_cases hx : isSlugChar x = true
    · rw [if_pos hx] at h
      rcases List.mem_cons.mp h with hcx | hcs
      · exact Or.inl (hcx ▸ hx)
      · exact ih c hcs
    · rw [if_neg hx] at h
      rcases pushHyphen_cases (collapseChars xs) with hp | hp <;> rw [hp] at h
      · rcases List.mem_cons.mp h with hcx | hcs
        · exact Or.inr hcx
        · exact ih c hcs
      · exact ih c h

/-- An alphanumeric character of the input survives the collapse. -/
theorem mem_collapseChars_of_slugChar : ∀ (l : List Char) (c : Char), c ∈ l →
    isSlugChar c = true → c ∈ collapseChars l := by
  intro l
  induction l with
  | nil => intro c h; cases h
  | cons x xs ih =>
    intro c h hc
    unfold collapseChars
    rcases List.mem_cons.mp h with hcx | hcs
    · subst hcx
      rw [if_pos hc]
      exact List.mem_cons_self c _
    · by_cases hx : isSlugChar x = true
      · rw [if_pos hx]
        exact List.mem_cons_of_mem x (ih c hcs hc)
      · rw [if_neg hx]
        rcases pushHyphen_cases (collapseChars xs) with hp | hp <;> rw [hp]
        · exact List.mem_cons_of_mem _ (ih c hcs hc)
        · exact ih c hcs hc

/-- An element not satisfying the predicate survives `dropWhile`. -/
theorem mem_dropWhile_of_not (p : α → Bool) : ∀ (l : List α) (c : α), c ∈ l →
    p c = false → c ∈ l.dropWhile p := by
  intro l
  induction l with
  | nil => intro c h; cases h
  | cons x xs ih =>
    intro c h hc
    rw [List.dropWhile_cons]
    by_cases hx : p x = true
    · rw [if_pos hx]
      rcases List.mem_cons.mp h with hcx | hcs
      · subst hcx; rw [hx] at hc; cases hc
      · exact ih c hcs hc
    · rw [if_neg hx]
      exact h

/-- The head surviving a `dropWhile` does not satisfy the predicate. -/
theorem head?_dropWhile_not (p : α → Bool) : ∀ (l : List α) (a : α),
    (l.dropWhile p).head? = some a → p a = false := by
  intro l
  induction l with
  | nil => intro a h; cases h
  | cons x xs ih =>
    intro a h
    rw [List.dropWhile_cons] at h
    by_cases hx : p x = true
    · rw [if_pos hx] at h
      exact ih a h
    · rw [if_neg hx] at h
      cases h
      exact Bool.not_eq_true _ ▸ (by simpa using hx)

/-- Trimming boundary hyphens yields a prefix of the left-trimmed list. -/
theorem trimHyphens_prefix (l : List Char) :
    trimHyphens l <+: l.dropWhile (fun c => c = '-') := by
  unfold trimHyphens
  have hs := List.dropWhile_suffix (l := (l.dropWhile (fun c => c = '-')).reverse)
    (fun c => c = '-')
  have hp := hs.reverse
  rwa [List.reverse_reverse] at hp

/-- A non-hyphen character of the input survives `trimHyphens`. -/
theorem mem_trimHyphens_of (l : List Char) (c : Char) (hc : c ∈ l) (hne : ¬(c = '-')) :
    c ∈ trimHyphens l := by
  unfold trimHyphens
  have h1 : c ∈ l.dropWhile (fun c => c = '-') :=
    mem_dropWhile_of_not _ l c hc (by simp [hne])
  have h2 : c ∈ (l.dropWhile (fun c => c = '-')).reverse := List.mem_reverse.mpr h1
  have h3 := mem_dropWhile_of_not (fun c => decide (c = '-')) _ c h2 (by simp [hne])
  exact List.mem_reverse.mpr h3

/-- `trimHyphens` keeps only characters of the input. -/
theorem mem_of_mem_trimHyphens (l : List Char) (c : Char) (h : c ∈ trimHyphens l) :
    c ∈ l := by
  unfold trimHyphens at h
  have h1 := List.mem_reverse.mp h
  have h2 := (List.dropWhile_suffix (fun c => decide (c = '-'))).subset h1
  have h3 := List.mem_reverse.mp h2
  exact (List.dropWhile_suffix (fun c => decide (c = '-'))).subset h3

/-- The head of a trimmed list is never a hyphen. -/
theorem head?_trimHyphens_not_hyphen (l : List Char) (a : Char)
    (h : (trimHyphens l).head? = some a) : ¬(a = '-') := by
  have hne : trimHyphens l ≠ [] := by
    intro hx
    rw [hx] at h
    cases h
  obtain ⟨t, ht⟩ := trimHyphens_prefix l
  have hhead : (l.dropWhile (fun c => c = '-')).head? = some a := by
    rw [← ht, List.head?_append_of_ne_nil _ hne, h]
  have hp := head?_dropWhile_not _ l a hhead
  simpa using hp

/-- Every character of the nanoid alphabet is a lowercase-alphanumeric. -/
theorem nanoidAlphabet_slugChar : ∀ c ∈ nanoidAlphabet, isSlugChar c = true := by decide

/-- An alphanumeric slug character is not a hyphen. -/
theorem slugChar_ne_hyphen (c : Char) (h : isSlugChar c = true) : ¬(c = '-') := by
  intro heq
  subst heq
  exact absurd h (by decide)

/-- The character data of the derived slug splits as base, hyphen, suffix. -/
theorem deriveSlug_data (title suffix : String) :
    (deriveSlug title suffix).toList =
      (trimHyphens (collapseChars (toLowerStr title).toList) ++ ['-']) ++ suffix.toList := by
  show ((slugBase title ++ "-") ++ suffix).data = _
  rw [String.data_append, String.data_append]
  rfl

/-- The concrete listing created from the all-punctuation title `"!"`. -/
def examplePunctTitleJob : JobListing :=
  { id := "j1", jobTitle := "!", jobDescription := "d", role := "r",
    slug := some "-abcdefghij", status := .draft, isPublished := false,
    publishedAt := none, views := 0, media := [] }

/-- C6's counterexample: a title with no alphanumeric character at all (`"!"`)
derives the slug `"-abcdefghij"`, which BEGINS with a hyphen — so the claimed
"no leading hyphen" fails on the slug `createJobListing` actually persists. -/
theorem createJobListing_slug_leading_hyphen :
    createJobListing []
        { jobTitle := "!", jobDescription := "d", role := "r", slug := none }
        "abcdefghij" "j1" =
      .ok ([examplePunctTitleJob], examplePunctTitleJob)
    ∧ examplePunctTitleJob.slug = some "-abcdefghij"
    ∧ ("-abcdefghij").toList.head? = some '-' := by
  refine ⟨by rfl, rfl, rfl⟩

/-- C6 (amended): the slug derived when no slug is supplied is
`slugBase title ++ "-" ++ suffix`; every character is lowercase-alphanumeric
or a hyphen, the last character is never a hyphen, and the first character is
not a hyphen PROVIDED the lowercased title contains at least one
alphanumeric character (an all-punctuation title yields an empty base, so the
slug then starts with the separating hyphen); the persisted listing carries
exactly this slug. -/
theorem derived_slug_shape :
    ∀ (title suffix : String),
      suffix.toList.length = 10 →
      (∀ c ∈ suffix.toList, c ∈ nanoidAlphabet) →
      (∀ c ∈ (deriveSlug title suffix).toList, isSlugChar c = true ∨ c = '-')
      ∧ (deriveSlug title suffix).toList.getLast? ≠ some '-'
      ∧ ((∃ c ∈ (toLowerStr title).toList, isSlugChar c = true) →
          (deriveSlug title suffix).toList.head? ≠ some '-')
      ∧ deriveSlug title suffix = slugBase title ++ "-" ++ suffix
      ∧ (∀ (store : List JobListing) (p : CreateJobListingParams) (newId : String)
           (st : List JobListing) (j : JobListing),
          p.slug = none →
          createJobListing store p suffix newId = .ok (st, j) →
          j.slug = some (deriveSlug p.jobTitle suffix)) := by
  intro title suffix hlen halpha
  refine ⟨?_, ?_, ?_, rfl, ?_⟩
  · intro c hc
    rw [deriveSlug_data] at hc
    rcases List.mem_append.mp hc with hl | hr
    · rcases List.mem_append.mp hl with hb | hh
      · exact collapseChars_charset _ c (mem_of_mem_trimHyphens _ c hb)
      · right
        simpa using hh
    · exact Or.inl (nanoidAlphabet_slugChar c (halpha c hr))
  · rw [deriveSlug_data, List.getLast?_append]
    cases hs : suffix.toList.getLast? with
    | none =>
      have : suffix.toList = [] := by
        cases hsl : suffix.toList with
        | nil => rfl
        | cons y ys => rw [hsl] at hs; simp [List.getLast?] at hs
      rw [this] at hlen
      cases hlen
    | some a =>
      have ha : a ∈ suffix.toList := List.mem_of_mem_getLast? hs
      have hslug := nanoidAlphabet_slugChar a (halpha a ha)
      have hne := slugChar_ne_hyphen a hslug
      simp only [Option.or_some]
      intro hcontra
      exact hne (by simpa using hcontra)
  · intro ⟨c, hcmem, hcslug⟩
    have hcol : c ∈ collapseChars (toLowerStr title).toList :=
      mem_collapseChars_of_slugChar _ c hcmem hcslug
    have hbase : c ∈ trimHyphens (collapseChars (toLowerStr title).toList) :=
      mem_trimHyphens_of _ c hcol (slugChar_ne_hyphen c hcslug)
    have hbne : trimHyphens (collapseChars (toLowerStr title).toList) ≠ [] :=
      List.ne_nil_of_mem hbase
    rw [deriveSlug_data, List.head?_append_of_ne_nil _ (by simp),
      List.head?_append_of_ne_nil _ hbne]
    cases hh : (trimHyphens (collapseChars (toLowerStr title).toList)).head? with
    | none =>
      cases hb : trimHyphens (collapseChars (toLowerStr title).toList) with
      | nil => exact absurd hb hbne
      | cons y ys => rw [hb] at hh; cases hh
    | some a =>
      have := head?_trimHyphens_not_hyphen _ a hh
      intro hcontra
      exact this (by simpa using hcontra)
  · intro store p newId st j hslug h
    unfold createJobListing at h
    split at h
    next => exact absurd h (by simp)
    next =>
      split at h
      next => exact absurd h (by simp)
      next =>
        split at h
        next => exact absurd h (by simp)
        next =>
          rw [hslug] at h
          simp only [strTruthy, Bool.false_eq_true, if_false] at h
          split at h
          next => exact absurd h (by simp)
          next =>
            simp only [Except.ok.injEq, Prod.mk.injEq] at h
            rw [← h.2]

/-- Witness for the amended C6 at the title `"Senior Dev!! Engineer"` and a
fixed suffix draw. -/
theorem derived_slug_shape_witness :
    deriveSlug "Senior Dev!! Engineer" "abc123def0" = "senior-dev-engineer-abc123def0"
    ∧ (∀ c ∈ (deriveSlug "Senior Dev!! Engineer" "abc123def0").toList,
        isSlugChar c = true ∨ c = '-')
    ∧ (deriveSlug "Senior Dev!! Engineer" "abc123def0").toList.getLast? ≠ some '-'
    ∧ (deriveSlug "Senior Dev!! Engineer" "abc123def0").toList.head? ≠ some '-' := by
  have h := derived_slug_shape "Senior Dev!! Engineer" "abc123def0" (by decide) (by decide)
  exact ⟨by rfl, h.1, h.2.1, h.2.2.1 ⟨'s', by decide, by decide⟩⟩

end VelvetBox
